import Mathlib

/-!
Shallow embedding of the houdini-debug-logger core (src/houdini_debug_logger.rs
and src/loggable.rs). Machine floats (f32) are modelled as rationals: the code
only moves coordinate values around and casts small frame indices, so no claim
depends on rounding. Host (hapi) calls are modelled as an oracle of step
outcomes plus a trace of performed host actions.
-/

/-- glam Vec3 with rational coordinates. -/
structure Vec3 where
  x : ℚ
  y : ℚ
  z : ℚ
  deriving DecidableEq, Repr

/-- glam Vec4 with rational coordinates. -/
structure Vec4 where
  x : ℚ
  y : ℚ
  z : ℚ
  w : ℚ
  deriving DecidableEq, Repr

/-- glam Mat4: four column vectors. -/
structure Mat4 where
  x_axis : Vec4
  y_axis : Vec4
  z_axis : Vec4
  w_axis : Vec4
  deriving DecidableEq, Repr

/-- glam Vec4.truncate: drop the w component. -/
def Vec4.truncate (v : Vec4) : Vec3 := ⟨v.x, v.y, v.z⟩

/-- glam Mat4.to_cols_array: the 16 components in column-major order. -/
def Mat4.to_cols_array (m : Mat4) : List ℚ :=
  [m.x_axis.x, m.x_axis.y, m.x_axis.z, m.x_axis.w,
   m.y_axis.x, m.y_axis.y, m.y_axis.z, m.y_axis.w,
   m.z_axis.x, m.z_axis.y, m.z_axis.z, m.z_axis.w,
   m.w_axis.x, m.w_axis.y, m.w_axis.z, m.w_axis.w]

/-- glam Mat4.IDENTITY. -/
def Mat4.identity : Mat4 :=
  ⟨⟨1, 0, 0, 0⟩, ⟨0, 1, 0, 0⟩, ⟨0, 0, 1, 0⟩, ⟨0, 0, 0, 1⟩⟩

/-- glam Mat4.from_translation: identity basis, translation in the w column. -/
def Mat4.from_translation (t : Vec3) : Mat4 :=
  ⟨⟨1, 0, 0, 0⟩, ⟨0, 1, 0, 0⟩, ⟨0, 0, 1, 0⟩, ⟨t.x, t.y, t.z, 1⟩⟩

/-- glam Quat (x, y, z, w). -/
structure Quat where
  x : ℚ
  y : ℚ
  z : ℚ
  w : ℚ
  deriving DecidableEq, Repr

/-- Structured JSON documents, standing for the serde_json values the
code serializes. Integer sources (i32, usize) serialize as `int`,
float sources as `num`. -/
inductive Json where
  | num (q : ℚ)
  | int (n : ℤ)
  | str (s : String)
  | arr (elems : List Json)
  | obj (fields : List (String × Json))

/-- Field lookup in an object document. -/
def Json.getField (j : Json) (key : String) : Option Json :=
  match j with
  | .obj fields => fields.lookup key
  | _ => none

/-- The closed set of DebugLoggable variants implemented in src/loggable.rs. -/
inductive LoggableValue where
  | vec3 (v : Vec3)
  | mat4 (m : Mat4)
  | quat (q : Quat)
  | float (f : ℚ)
  | polyline (points : List Vec3)
  | polygon (points : List Vec3)
  | mesh (vertices : List Vec3) (indices : List ℕ) (index_counts : List ℕ)
  | armature (names : List String) (parents : List ℤ) (xforms : List Mat4)
  | capsule (point_a : Vec3) (point_b : Vec3) (radius : ℚ)
  | sphere (center : Vec3) (radius : ℚ)

/-- The kind tag of each variant, from the kind methods in src/loggable.rs.
Note the Polyline variant reports "line". -/
def LoggableValue.kind : LoggableValue → String
  | .vec3 _ => "vec3"
  | .mat4 _ => "mat4"
  | .quat _ => "quat"
  | .float _ => "float"
  | .polyline _ => "line"
  | .polygon _ => "polygon"
  | .mesh _ _ _ => "mesh"
  | .armature _ _ _ => "armature"
  | .capsule _ _ _ => "capsule"
  | .sphere _ _ => "sphere"

/-- The position methods of src/loggable.rs. The Rust bodies of Polyline,
Polygon, Mesh and Armature index element 0, which panics on an empty list;
the panic is modelled as `none`. -/
def LoggableValue.position : LoggableValue → Option Vec3
  | .vec3 v => some v
  | .mat4 m => some m.w_axis.truncate
  | .quat _ => some ⟨0, 0, 0⟩
  | .float _ => some ⟨0, 0, 0⟩
  | .polyline points => points.get? 0
  | .polygon points => points.get? 0
  | .mesh vertices _ _ => vertices.get? 0
  | .armature _ _ xforms => (xforms.get? 0).map (fun m => m.w_axis.truncate)
  | .capsule a b _ =>
      some ⟨(a.x + b.x) / 2, (a.y + b.y) / 2, (a.z + b.z) / 2⟩
  | .sphere c _ => some c

/-- The as_json methods of src/loggable.rs, as structured documents. -/
def LoggableValue.as_json : LoggableValue → Json
  | .vec3 v => .obj [("pt", .arr [.num v.x, .num v.y, .num v.z])]
  | .mat4 m => .obj [("xform", .arr
      [.num m.x_axis.x, .num m.x_axis.y, .num m.x_axis.z, .num m.x_axis.w,
       .num m.y_axis.x, .num m.y_axis.y, .num m.y_axis.z, .num m.y_axis.w,
       .num m.z_axis.x, .num m.z_axis.y, .num m.z_axis.z, .num m.z_axis.w,
       .num m.w_axis.x, .num m.w_axis.y, .num m.w_axis.z, .num m.w_axis.w])]
  | .quat q => .obj [("quat", .arr [.num q.x, .num q.y, .num q.z, .num q.w])]
  | .float f => .obj [("float", .num f)]
  | .polyline points => .obj
      [("x", .arr (points.map (fun pt => Json.num pt.x))),
       ("y", .arr (points.map (fun pt => Json.num pt.y))),
       ("z", .arr (points.map (fun pt => Json.num pt.z)))]
  | .polygon points => .obj
      [("x", .arr (points.map (fun pt => Json.num pt.x))),
       ("y", .arr (points.map (fun pt => Json.num pt.y))),
       ("z", .arr (points.map (fun pt => Json.num pt.z)))]
  | .mesh vertices indices index_counts => .obj
      [("x", .arr (vertices.map (fun pt => Json.num pt.x))),
       ("y", .arr (vertices.map (fun pt => Json.num pt.y))),
       ("z", .arr (vertices.map (fun pt => Json.num pt.z))),
       ("i", .arr (indices.map (fun n => Json.int n))),
       ("c", .arr (index_counts.map (fun n => Json.int n)))]
  | .armature names parents xforms => .obj
      [("names", .arr (names.map Json.str)),
       ("xforms", .arr ((xforms.flatMap Mat4.to_cols_array).map Json.num)),
       ("parents", .arr (parents.map Json.int))]
  | .capsule a b r => .obj
      [("a", .arr [.num a.x, .num a.y, .num a.z]),
       ("b", .arr [.num b.x, .num b.y, .num b.z]),
       ("r", .num r)]
  | .sphere _ r => .obj [("radius", .num r)]

/-- The Line convenience type of src/loggable.rs. -/
structure Line where
  start : Vec3
  end_ : Vec3

/-- Line into_loggable: normalization to a two-point Polyline. -/
def Line.into_loggable (l : Line) : LoggableValue :=
  .polyline [l.start, l.end_]

/-- LogEntry of src/houdini_debug_logger.rs. -/
structure LogEntry where
  name : String
  value : LoggableValue

/-- FrameData of src/houdini_debug_logger.rs. -/
structure FrameData where
  entries : List LogEntry

/-- LoggerData of src/houdini_debug_logger.rs: dirty flag plus frames. -/
structure LoggerData where
  modified : Bool
  frames : List FrameData

/-- The LoggerData built by new_with_file and new_with_live_session:
one empty frame, modified set. -/
def new_logger : LoggerData :=
  ⟨true, [⟨[]⟩]⟩

/-- HoudiniDebugLogger.next_frame: mark modified, push one empty frame. -/
def next_frame (d : LoggerData) : LoggerData :=
  ⟨true, d.frames ++ [⟨[]⟩]⟩

/-- Append an entry to the last frame, as frames.last_mut does;
`none` when there is no frame. -/
def pushToLast (e : LogEntry) : List FrameData → Option (List FrameData)
  | [] => none
  | [f] => some [⟨f.entries ++ [e]⟩]
  | f :: g :: rest => (pushToLast e (g :: rest)).map (fun fs => f :: fs)

/-- HoudiniDebugLogger.log: set modified (before the last-frame lookup, as in
the source), then append the entry to the last frame or report the
missing-frame error. -/
def logOp (name : String) (v : LoggableValue) (d : LoggerData) :
    LoggerData × Except String Unit :=
  match pushToLast ⟨name, v⟩ d.frames with
  | some fs => (⟨true, fs⟩, .ok ())
  | none => (⟨true, d.frames⟩, .error "For some reason no active frame was found")

/-- Sequencing of per-entry Option results: `none` as soon as one
entry panics. -/
def sequenceOpt : List (Option Vec3) → Option (List Vec3)
  | [] => some []
  | none :: _ => none
  | some v :: rest => (sequenceOpt rest).map (fun vs => v :: vs)

/-- The canonical export traversal: outer loop over frames in frame order,
inner loop over the entries of a frame in insertion order. -/
def entriesInOrder (frames : List FrameData) : List LogEntry :=
  frames.flatMap (fun frame => frame.entries)

/-- The flattened position column built by add_positions: one Vec3 per
entry, flattened to three floats per row. A position panic (empty points)
makes the whole column `none`. -/
def point_positions (frames : List FrameData) : Option (List ℚ) :=
  (sequenceOpt (frames.flatMap
      (fun frame => frame.entries.map (fun entry => entry.value.position)))).map
    (fun vs => vs.flatMap (fun v => [v.x, v.y, v.z]))

/-- The name column built by add_names. -/
def point_names (frames : List FrameData) : List String :=
  frames.flatMap (fun frame => frame.entries.map (fun entry => entry.name))

/-- The kind column built by add_kinds. -/
def point_kinds (frames : List FrameData) : List String :=
  frames.flatMap (fun frame => frame.entries.map (fun entry => entry.value.kind))

/-- The time column built by add_frame_times: (frameIndex + 1) as f32,
once per entry of the frame. -/
def point_times (frames : List FrameData) : List ℚ :=
  frames.enum.flatMap
    (fun p => p.2.entries.map (fun _ => ((p.1 + 1 : ℕ) : ℚ)))

/-- The metadata column built by add_metadata. -/
def pt_metadata (frames : List FrameData) : List Json :=
  frames.flatMap (fun frame => frame.entries.map (fun entry => entry.value.as_json))

/-- The steps of HoudiniDebugLogger.save after the dirty check, in source
order (kinds are written after metadata; save_to_file only for the File
export method). -/
inductive SaveStep where
  | createNode
  | cook
  | getGeometry
  | setPartInfo
  | addPositions
  | addNames
  | addFrameTimes
  | addMetadata
  | addKinds
  | commit
  | saveToFile
  deriving DecidableEq, Repr

/-- Host calls performed by save, with the data written to the host. -/
inductive HostAction where
  | createdNode
  | cooked
  | gotGeometry
  | setPart (numPoints : ℕ)
  | wrotePositions (data : List ℚ)
  | wroteNames (data : List String)
  | wroteTimes (data : List ℚ)
  | wroteMetadata (data : List Json)
  | wroteKinds (data : List String)
  | committed
  | savedToFile

/-- The host action a step performs, given the frame buffer. The
add_positions step is `none` when building its column panics. -/
def stepAction (frames : List FrameData) : SaveStep → Option HostAction
  | .createNode => some .createdNode
  | .cook => some .cooked
  | .getGeometry => some .gotGeometry
  | .setPartInfo => some (.setPart (frames.map (fun f => f.entries.length)).sum)
  | .addPositions => (point_positions frames).map HostAction.wrotePositions
  | .addNames => some (.wroteNames (point_names frames))
  | .addFrameTimes => some (.wroteTimes (point_times frames))
  | .addMetadata => some (.wroteMetadata (pt_metadata frames))
  | .addKinds => some (.wroteKinds (point_kinds frames))
  | .commit => some .committed
  | .saveToFile => some .savedToFile

/-- The ordered step list of save, source order (lines 199-230). -/
def stepsFor (isFile : Bool) : List SaveStep :=
  [.createNode, .cook, .getGeometry, .setPartInfo, .addPositions, .addNames,
   .addFrameTimes, .addMetadata, .addKinds, .commit] ++
    (if isFile then [.saveToFile] else [])

/-- Run the save steps in order against a host that fails at the step
named by the oracle `failAt` (the `?` early return): the trace of
performed actions and whether save reached Ok. -/
def runSave (failAt : Option SaveStep) (frames : List FrameData) :
    List SaveStep → List HostAction × Bool
  | [] => ([], true)
  | s :: rest =>
      if failAt = some s then ([], false)
      else
        match stepAction frames s with
        | none => ([], false)
        | some a =>
            let r := runSave failAt frames rest
            (a :: r.1, r.2)

/-- The outcome of one save call: the logger state afterwards, the host
actions performed, and whether save returned Ok. -/
structure SaveOutcome where
  data : LoggerData
  actions : List HostAction
  ok : Bool

/-- HoudiniDebugLogger.save: early Ok when not modified; otherwise clear
modified first, then run the export steps, leaving frames untouched. -/
def save (failAt : Option SaveStep) (isFile : Bool) (d : LoggerData) :
    SaveOutcome :=
  if d.modified = false then ⟨d, [], true⟩
  else
    let r := runSave failAt d.frames (stepsFor isFile)
    ⟨⟨false, d.frames⟩, r.1, r.2⟩

/-- The global entry point houlog (src lines 33-42): warn and return when
no logger is initialized; otherwise log and unwrap. The unwrap panic is
modelled as the outer `none`; the Bool records whether the
not-initialized warning was emitted. -/
def houlog (st : Option LoggerData) (name : String) (v : LoggableValue) :
    Option (Option LoggerData × Bool) :=
  match st with
  | none => some (none, true)
  | some d =>
      match logOp name v d with
      | (d1, .ok _) => some (some d1, false)
      | (_, .error _) => none

/-- The global entry point houlog_next_frame (src lines 49-58): warn and
return Ok when no logger is initialized; otherwise advance the frame. -/
def houlog_next_frame (st : Option LoggerData) :
    Option LoggerData × Except String Unit × Bool :=
  match st with
  | none => (none, .ok (), true)
  | some d => (some (next_frame d), .ok (), false)

/-- The global entry point save_houlog (src lines 79-88): warn and return
Ok when no logger is initialized; otherwise save. -/
def save_houlog (failAt : Option SaveStep) (isFile : Bool)
    (st : Option LoggerData) : Option LoggerData × Except String Unit × Bool :=
  match st with
  | none => (none, .ok (), true)
  | some d =>
      let r := save failAt isFile d
      (some r.data, if r.ok then .ok () else .error "save failed", false)

/-- States of the logger reachable from construction through the
operations of the source: next_frame, log, save. -/
inductive Reach : LoggerData → Prop where
  | base : Reach new_logger
  | step_next (d : LoggerData) : Reach d → Reach (next_frame d)
  | step_log (d : LoggerData) (n : String) (v : LoggableValue) :
      Reach d → Reach (logOp n v d).1
  | step_save (d : LoggerData) (failAt : Option SaveStep) (isFile : Bool) :
      Reach d → Reach (save failAt isFile d).data

/-- The 0-based index of the frame containing a given row of the export. -/
def rowFrameIndex : List FrameData → ℕ → ℕ
  | [], _ => 0
  | f :: rest, row =>
      if row < f.entries.length then 0
      else rowFrameIndex rest (row - f.entries.length) + 1

/-- The time column built from an arbitrary starting enumeration index,
generalizing point_times for induction. -/
def point_times_from (n : ℕ) (frames : List FrameData) : List ℚ :=
  (frames.enumFrom n).flatMap
    (fun p => p.2.entries.map (fun _ => ((p.1 + 1 : ℕ) : ℚ)))

/-- Whether a host action is the structural commit. -/
def isCommitted : HostAction → Bool
  | .committed => true
  | _ => false

/-- Number of commit actions in a host trace. -/
def commitCount (as : List HostAction) : ℕ :=
  as.countP isCommitted

/-- The 32 floats expected in the armature example metadata: the
column-major components of the identity followed by those of the
translation by (1, 0, 0). -/
def armatureExampleXforms : List ℚ :=
  [1, 0, 0, 0, 0, 1, 0, 0, 0, 0, 1, 0, 0, 0, 0, 1,
   1, 0, 0, 0, 0, 1, 0, 0, 0, 0, 1, 0, 1, 0, 0, 1]

theorem pushToLast_eq (e : LogEntry) (l : List FrameData) (h : l ≠ []) :
    pushToLast e l =
      some (l.dropLast ++ [⟨(l.getLast h).entries ++ [e]⟩]) := by
  induction l with
  | nil => exact absurd rfl h
  | cons f rest ih =>
    cases rest with
    | nil => rfl
    | cons g rest2 =>
      have h2 : (g :: rest2 : List FrameData) ≠ [] := by simp
      simp only [pushToLast, ih h2, Option.map_some', List.dropLast_cons₂,
        List.getLast_cons h2, List.cons_append]

theorem flatMap_entries_map {α : Type} (g : LogEntry → α) (frames : List FrameData) :
    frames.flatMap (fun fr => fr.entries.map g) = (entriesInOrder frames).map g := by
  induction frames with
  | nil => rfl
  | cons f rest ih =>
    simp [entriesInOrder, List.flatMap_cons, ih]

theorem sequenceOpt_some_length (l : List (Option Vec3)) (vs : List Vec3)
    (h : sequenceOpt l = some vs) : vs.length = l.length := by
  induction l generalizing vs with
  | nil =>
    simp [sequenceOpt] at h
    simp [← h]
  | cons o rest ih =>
    cases o with
    | none => simp [sequenceOpt] at h
    | some v =>
      simp only [sequenceOpt, Option.map_eq_some'] at h
      obtain ⟨ws, hws, hv⟩ := h
      simp [← hv, ih ws hws]

theorem tripleFlat_length (vs : List Vec3) :
    (vs.flatMap (fun v => [v.x, v.y, v.z])).length = 3 * vs.length := by
  induction vs with
  | nil => rfl
  | cons v rest ih =>
    simp [List.flatMap_cons, ih]
    omega

theorem point_times_from_length (frames : List FrameData) :
    ∀ n : ℕ, (point_times_from n frames).length = (entriesInOrder frames).length := by
  induction frames with
  | nil => intro n; rfl
  | cons f rest ih =>
    intro n
    simp [point_times_from, entriesInOrder, List.enumFrom_cons, List.flatMap_cons]
    have := ih (n + 1)
    simp [point_times_from, entriesInOrder] at this
    simp [this]

theorem point_times_eq_from (frames : List FrameData) :
    point_times frames = point_times_from 0 frames := rfl

theorem point_times_from_get (frames : List FrameData) :
    ∀ (n row : ℕ), row < (point_times_from n frames).length →
      (point_times_from n frames).get? row =
        some ((n + rowFrameIndex frames row + 1 : ℕ) : ℚ) := by
  induction frames with
  | nil => intro n row h; simp [point_times_from] at h
  | cons f rest ih =>
    intro n row h
    have hsplit : point_times_from n (f :: rest) =
        f.entries.map (fun _ => ((n + 1 : ℕ) : ℚ)) ++ point_times_from (n + 1) rest := by
      simp [point_times_from, List.enumFrom_cons, List.flatMap_cons]
    rw [hsplit] at h ⊢
    by_cases hr : row < f.entries.length
    · rw [List.get?_append (by simpa using hr)]
      rw [List.get?_map]
      rw [List.get?_eq_get hr]
      simp [rowFrameIndex, hr]
    · push_neg at hr
      rw [List.get?_append_right (by simpa using hr)]
      simp only [List.length_map]
      have hlt : row - f.entries.length < (point_times_from (n + 1) rest).length := by
        rw [List.length_append, List.length_map] at h
        omega
      rw [ih (n + 1) (row - f.entries.length) hlt]
      have hnr : ¬ row < f.entries.length := by omega
      simp only [rowFrameIndex, hnr, if_false]
      have harith : n + 1 + rowFrameIndex rest (row - f.entries.length) + 1
          = n + (rowFrameIndex rest (row - f.entries.length) + 1) + 1 := by omega
      rw [harith]

theorem stepAction_commit (frames : List FrameData) (s : SaveStep) (a : HostAction)
    (h : stepAction frames s = some a) :
    isCommitted a = decide (s = SaveStep.commit) := by
  cases s
  case addPositions =>
    simp only [stepAction, Option.map_eq_some'] at h
    obtain ⟨ps, _, ha⟩ := h
    simp [← ha, isCommitted]
  all_goals
    simp only [stepAction, Option.some.injEq] at h
    simp [← h, isCommitted]

theorem runSave_ok_commitCount (failAt : Option SaveStep) (frames : List FrameData) :
    ∀ steps : List SaveStep, (runSave failAt frames steps).2 = true →
      commitCount (runSave failAt frames steps).1 =
        steps.countP (fun s => decide (s = SaveStep.commit)) := by
  intro steps
  induction steps with
  | nil => intro _; rfl
  | cons s rest ih =>
    intro h
    by_cases hf : failAt = some s
    · simp [runSave, hf] at h
    · cases ha : stepAction frames s with
      | none => simp [runSave, hf, ha] at h
      | some a =>
        have hrun : runSave failAt frames (s :: rest) =
            ((a :: (runSave failAt frames rest).1), (runSave failAt frames rest).2) := by
          simp [runSave, hf, ha]
        rw [hrun] at h ⊢
        simp only [commitCount, List.countP_cons] at ih ⊢
        rw [ih h, stepAction_commit frames s a ha]

/-- C1: for every frame buffer produced by record and advance-frame calls,
the export step builds the five columns from one traversal (frames in
order, entries of a frame in insertion order), so all columns have equal
row counts (positions contributing three floats per row) and row i of
every column comes from the same entry. -/
theorem export_columns_aligned (frames : List FrameData) :
    point_names frames = (entriesInOrder frames).map (fun e => e.name) ∧
    point_kinds frames = (entriesInOrder frames).map (fun e => e.value.kind) ∧
    pt_metadata frames = (entriesInOrder frames).map (fun e => e.value.as_json) ∧
    (point_times frames).length = (entriesInOrder frames).length ∧
    (∀ ps, point_positions frames = some ps →
      ∃ vs, sequenceOpt ((entriesInOrder frames).map (fun e => e.value.position))
              = some vs ∧
        ps = vs.flatMap (fun v => [v.x, v.y, v.z]) ∧
        ps.length = 3 * (entriesInOrder frames).length) := by
  refine ⟨flatMap_entries_map _ frames, flatMap_entries_map _ frames,
    flatMap_entries_map _ frames, ?_, ?_⟩
  · rw [point_times_eq_from]
    exact point_times_from_length frames 0
  · intro ps hps
    simp only [point_positions, Option.map_eq_some'] at hps
    obtain ⟨vs, hseq, hflat⟩ := hps
    rw [flatMap_entries_map (fun e => e.value.position) frames] at hseq
    refine ⟨vs, hseq, hflat.symm, ?_⟩
    rw [← hflat, tripleFlat_length,
      sequenceOpt_some_length _ vs hseq, List.length_map]

/-- C1 witness: one frame with a single vec3 entry. -/
theorem export_columns_aligned_witness :
    point_names [⟨[⟨"a", LoggableValue.vec3 ⟨1, 2, 3⟩⟩]⟩] =
      (entriesInOrder [⟨[⟨"a", LoggableValue.vec3 ⟨1, 2, 3⟩⟩]⟩]).map
        (fun e => e.name) ∧
    (∃ vs, sequenceOpt
        ((entriesInOrder [⟨[⟨"a", LoggableValue.vec3 ⟨1, 2, 3⟩⟩]⟩]).map
          (fun e => e.value.position)) = some vs ∧
      [(1 : ℚ), 2, 3] = vs.flatMap (fun v => [v.x, v.y, v.z]) ∧
      ([(1 : ℚ), 2, 3]).length =
        3 * (entriesInOrder [⟨[⟨"a", LoggableValue.vec3 ⟨1, 2, 3⟩⟩]⟩]).length) :=
  ⟨(export_columns_aligned [⟨[⟨"a", LoggableValue.vec3 ⟨1, 2, 3⟩⟩]⟩]).1,
   (export_columns_aligned [⟨[⟨"a", LoggableValue.vec3 ⟨1, 2, 3⟩⟩]⟩]).2.2.2.2
      [(1 : ℚ), 2, 3] rfl⟩

/-- C2: every row of the time column equals the 0-based index of the frame
containing the row plus 1, cast to float; rows of the initial frame get
time 1. -/
theorem times_row_frame_index (frames : List FrameData) (row : ℕ)
    (h : row < (point_times frames).length) :
    (point_times frames).get? row =
      some ((rowFrameIndex frames row + 1 : ℕ) : ℚ) ∧
    (rowFrameIndex frames row = 0 → (point_times frames).get? row = some 1) := by
  have hmain := point_times_from_get frames 0 row
    (by rw [point_times_eq_from] at h; exact h)
  rw [← point_times_eq_from] at hmain
  simp only [Nat.zero_add] at hmain
  refine ⟨hmain, fun h0 => ?_⟩
  rw [hmain, h0]
  norm_num

/-- C2 witness: two frames with one entry each; row 1 is in frame 1 and
gets time 2, and frame 0 rows get time 1. -/
theorem times_row_frame_index_witness :
    ((point_times [⟨[⟨"a", LoggableValue.float 1⟩]⟩,
        ⟨[⟨"b", LoggableValue.float 2⟩]⟩]).get? 1 =
      some ((rowFrameIndex [⟨[⟨"a", LoggableValue.float 1⟩]⟩,
          ⟨[⟨"b", LoggableValue.float 2⟩]⟩] 1 + 1 : ℕ) : ℚ)) ∧
    (rowFrameIndex [⟨[⟨"a", LoggableValue.float 1⟩]⟩,
        ⟨[⟨"b", LoggableValue.float 2⟩]⟩] 1 = 0 →
      (point_times [⟨[⟨"a", LoggableValue.float 1⟩]⟩,
          ⟨[⟨"b", LoggableValue.float 2⟩]⟩]).get? 1 = some 1) :=
  times_row_frame_index
    [⟨[⟨"a", LoggableValue.float 1⟩]⟩, ⟨[⟨"b", LoggableValue.float 2⟩]⟩] 1
    (by decide)

/-- C3: a save that fails at any step after the dirty check leaves the
dirty flag cleared and the frame buffer unchanged. -/
theorem failed_save_state (d : LoggerData) (failAt : Option SaveStep)
    (isFile : Bool) (hm : d.modified = true)
    (hf : (save failAt isFile d).ok = false) :
    (save failAt isFile d).data.modified = false ∧
    (save failAt isFile d).data.frames = d.frames := by
  simp [save, hm]

/-- C3 witness: the host cook step fails on a dirty one-frame logger. -/
theorem failed_save_state_witness :
    (save (some SaveStep.cook) false ⟨true, [⟨[]⟩]⟩).data.modified = false ∧
    (save (some SaveStep.cook) false ⟨true, [⟨[]⟩]⟩).data.frames = [⟨[]⟩] :=
  failed_save_state ⟨true, [⟨[]⟩]⟩ (some SaveStep.cook) false rfl (by decide)

/-- C4: a save on a clean logger returns success with no host action and
no state change; hence after a dirty save, an immediately following save
is a no-op, and across the two calls the structural commit runs exactly
once when the first save succeeds. -/
theorem clean_save_no_op (d : LoggerData) (failAt failAt2 : Option SaveStep)
    (isFile : Bool) :
    (d.modified = false → save failAt isFile d = ⟨d, [], true⟩) ∧
    (d.modified = true →
      save failAt2 isFile (save failAt isFile d).data =
          ⟨(save failAt isFile d).data, [], true⟩ ∧
      ((save failAt isFile d).ok = true →
        commitCount (save failAt isFile d).actions = 1 ∧
        commitCount (save failAt2 isFile (save failAt isFile d).data).actions
          = 0)) := by
  constructor
  · intro hm
    simp [save, hm]
  · intro hm
    have hdata : (save failAt isFile d).data = ⟨false, d.frames⟩ := by
      simp [save, hm]
    have hsecond : save failAt2 isFile (save failAt isFile d).data =
        ⟨(save failAt isFile d).data, [], true⟩ := by
      rw [hdata]
      simp [save]
    refine ⟨hsecond, fun hok => ⟨?_, ?_⟩⟩
    · have hact : (save failAt isFile d).actions =
          (runSave failAt d.frames (stepsFor isFile)).1 := by
        simp [save, hm]
      have hok2 : (runSave failAt d.frames (stepsFor isFile)).2 = true := by
        have : (save failAt isFile d).ok =
            (runSave failAt d.frames (stepsFor isFile)).2 := by
          simp [save, hm]
        rw [← this]
        exact hok
      rw [hact, runSave_ok_commitCount failAt d.frames (stepsFor isFile) hok2]
      cases isFile <;> rfl
    · rw [hsecond]
      rfl

/-- C4 witness: a dirty logger with one vec3 entry, all host steps
succeeding, followed by a second save; plus the clean-logger branch. -/
theorem clean_save_no_op_witness :
    (save none false ⟨false, []⟩ = ⟨⟨false, []⟩, [], true⟩) ∧
    (save none false
        (save none false ⟨true, [⟨[⟨"a", LoggableValue.vec3 ⟨1, 2, 3⟩⟩]⟩]⟩).data =
      ⟨(save none false ⟨true, [⟨[⟨"a", LoggableValue.vec3 ⟨1, 2, 3⟩⟩]⟩]⟩).data,
        [], true⟩) ∧
    commitCount
      (save none false ⟨true, [⟨[⟨"a", LoggableValue.vec3 ⟨1, 2, 3⟩⟩]⟩]⟩).actions
      = 1 ∧
    commitCount
      (save none false
        (save none false ⟨true, [⟨[⟨"a", LoggableValue.vec3 ⟨1, 2, 3⟩⟩]⟩]⟩).data).actions
      = 0 :=
  ⟨(clean_save_no_op ⟨false, []⟩ none none false).1 rfl,
   ((clean_save_no_op ⟨true, [⟨[⟨"a", LoggableValue.vec3 ⟨1, 2, 3⟩⟩]⟩]⟩
        none none false).2 rfl).1,
   (((clean_save_no_op ⟨true, [⟨[⟨"a", LoggableValue.vec3 ⟨1, 2, 3⟩⟩]⟩]⟩
        none none false).2 rfl).2 (by decide)).1,
   (((clean_save_no_op ⟨true, [⟨[⟨"a", LoggableValue.vec3 ⟨1, 2, 3⟩⟩]⟩]⟩
        none none false).2 rfl).2 (by decide)).2⟩

/-- C5 counterexample: with no logger initialized, both the frame-advance
and the export entry points return Ok after only logging a warning; they
do not surface an error result, refuting the claim that they surface the
not-initialized condition explicitly. -/
theorem uninit_entry_points_return_ok :
    (¬ ∃ e, (houlog_next_frame none).2.1 = Except.error e) ∧
    (¬ ∃ e, (save_houlog none false none).2.1 = Except.error e) := by
  constructor <;> rintro ⟨e, h⟩ <;> simp [houlog_next_frame, save_houlog] at h

/-- C5 amended: with no logger initialized, all three entry points warn
and degrade to no-ops; record is a warning plus no-op, and frame-advance
and export also return success with a warning instead of surfacing an
error. -/
theorem uninit_entry_points_warn_no_op (name : String) (v : LoggableValue)
    (failAt : Option SaveStep) (isFile : Bool) :
    houlog none name v = some (none, true) ∧
    houlog_next_frame none = (none, Except.ok (), true) ∧
    save_houlog failAt isFile none = (none, Except.ok (), true) :=
  ⟨rfl, rfl, rfl⟩

/-- C6: on a non-empty points list, Polyline position returns the first
point and no failure branch is reachable; on an empty list it fails fast
(the modelled panic) instead of reading out of bounds. -/
theorem polyline_position_first (pts : List Vec3) (h : pts ≠ []) :
    LoggableValue.position (.polyline pts) = some (pts.head h) ∧
    LoggableValue.position (.polyline ([] : List Vec3)) = none := by
  cases pts with
  | nil => exact absurd rfl h
  | cons p rest => exact ⟨rfl, rfl⟩

/-- C6 witness: a one-point polyline. -/
theorem polyline_position_first_witness :
    LoggableValue.position (.polyline [(⟨1, 2, 3⟩ : Vec3)]) =
      some (⟨1, 2, 3⟩ : Vec3) ∧
    LoggableValue.position (.polyline ([] : List Vec3)) = none :=
  polyline_position_first [(⟨1, 2, 3⟩ : Vec3)] (by simp)

/-- C7: a Line converts to the 2-point Polyline of its endpoints; the
converted value has position equal to start, and its kind is exactly the
kind any Polyline reports. -/
theorem line_conversion (l : Line) (qs : List Vec3) :
    l.into_loggable = LoggableValue.polyline [l.start, l.end_] ∧
    l.into_loggable.position = some l.start ∧
    l.into_loggable.kind = (LoggableValue.polyline qs).kind :=
  ⟨rfl, rfl, rfl⟩

/-- C8: construction yields one empty frame with the dirty flag set;
advance-frame appends one empty frame; record appends one entry to the
last frame; and every reachable state has a non-empty frames sequence. -/
theorem logger_frames_invariant :
    (new_logger.modified = true ∧ new_logger.frames = [⟨[]⟩]) ∧
    (∀ d : LoggerData,
      (next_frame d).frames = d.frames ++ [⟨[]⟩] ∧
      (next_frame d).modified = true) ∧
    (∀ (d : LoggerData) (n : String) (v : LoggableValue) (h : d.frames ≠ []),
      (logOp n v d).1.frames =
        d.frames.dropLast ++ [⟨(d.frames.getLast h).entries ++ [⟨n, v⟩]⟩]) ∧
    (∀ d : LoggerData, Reach d → d.frames ≠ []) := by
  refine ⟨⟨rfl, rfl⟩, fun d => ⟨rfl, rfl⟩, ?_, ?_⟩
  · intro d n v h
    simp [logOp, pushToLast_eq ⟨n, v⟩ d.frames h]
  · intro d hr
    induction hr with
    | base => simp [new_logger]
    | step_next d2 _ _ => simp [next_frame]
    | step_log d2 n v _ ih =>
      rw [logOp, pushToLast_eq ⟨n, v⟩ d2.frames ih]
      simp
    | step_save d2 failAt isFile _ ih =>
      cases hm : d2.modified <;> simp [save, hm] <;> exact ih

/-- C8 witness: the initial state is reachable and non-empty, and a
record call appends the entry to the single frame. -/
theorem logger_frames_invariant_witness :
    new_logger.frames ≠ [] ∧
    (logOp "a" (LoggableValue.float 1) new_logger).1.frames =
      [⟨[⟨"a", LoggableValue.float 1⟩]⟩] := by
  constructor
  · exact logger_frames_invariant.2.2.2 new_logger Reach.base
  · have h := logger_frames_invariant.2.2.1 new_logger "a"
      (LoggableValue.float 1) (by simp [new_logger])
    simpa [new_logger] using h

/-- C9: the armature example with names [root, child], parents [-1, 0]
and transforms [identity, translate (1,0,0)] has metadata listing those
names and parents, and 32 xform floats in column-major order whose
second block ends in the translation components (1, 0, 0, 1). -/
theorem armature_metadata_example :
    (LoggableValue.as_json (.armature ["root", "child"] [-1, 0]
        [Mat4.identity, Mat4.from_translation ⟨1, 0, 0⟩])).getField "names"
      = some (.arr [.str "root", .str "child"]) ∧
    (LoggableValue.as_json (.armature ["root", "child"] [-1, 0]
        [Mat4.identity, Mat4.from_translation ⟨1, 0, 0⟩])).getField "parents"
      = some (.arr [.int (-1), .int 0]) ∧
    (LoggableValue.as_json (.armature ["root", "child"] [-1, 0]
        [Mat4.identity, Mat4.from_translation ⟨1, 0, 0⟩])).getField "xforms"
      = some (.arr (armatureExampleXforms.map Json.num)) ∧
    armatureExampleXforms.length = 32 ∧
    armatureExampleXforms.drop 28 = [1, 0, 0, 1] := by
  refine ⟨rfl, rfl, rfl, rfl, rfl⟩

/-- C10: every Polyline reports kind "line" (not "polyline"), a Polygon
reports "polygon", and for equal points the two produce identical
metadata documents and identical positions, so their exported rows can
differ only in the kind column. -/
theorem polyline_polygon_rows (pts : List Vec3) :
    (LoggableValue.polyline pts).kind = "line" ∧
    (LoggableValue.polygon pts).kind = "polygon" ∧
    (LoggableValue.polyline pts).as_json = (LoggableValue.polygon pts).as_json ∧
    (LoggableValue.polyline pts).position = (LoggableValue.polygon pts).position :=
  ⟨rfl, rfl, rfl, rfl⟩
